import Mathlib

/-!
Verification of the translation-pipeline repository (agent.py, quebec.py,
test_main.py) against its natural-language specification.

The source is Python; this file is a shallow embedding.  Model conventions:

* Python dict values arriving from the model backend are JSON values; they are
  embedded as the inductive type Json below.  Numbers are modelled as integers
  (no claim involves fractional numbers; a fractional or exponent literal is
  treated as unparseable by the embedded parser).
* json.loads is embedded as jsonParse: a fuel-based recursive-descent parser
  for RFC 8259 JSON restricted to integer numerals.  Python-specific
  extensions of json.loads (NaN, Infinity, surrogate-pair merging) are
  outside the model.
* Python str.find / str.rfind / slicing are embedded as pyFind / pyRfind /
  pySlice with Python's negative-index and clamping semantics.
* The backend model (AWS Bedrock) is nondeterministic: it is embedded as an
  Oracle, a function from the index of the invocation within a run to either
  the generated text or a raised transport/backend exception.  Stateful
  call counting is embedded by threading the call index through each stage.
* Raised Python exceptions are embedded as the error case of Except String.
-/

set_option maxRecDepth 8192

namespace TransPipe

/-- JSON values as returned by json.loads, with numbers restricted to
integers.  Python dicts keep insertion order, embedded as an association
list; duplicate keys never arise in the inputs considered here, and lookup
takes the last binding, as Python dict construction does. -/
inductive Json where
  | null
  | bool (b : Bool)
  | num (n : Int)
  | str (s : String)
  | arr (elems : List Json)
  | obj (fields : List (String × Json))
  deriving Repr

mutual

/-- Structural equality test on JSON values (the nested lists prevent a
derived instance). -/
def Json.beq : Json → Json → Bool
  | .null, .null => true
  | .bool x, .bool y => x == y
  | .num x, .num y => x == y
  | .str x, .str y => x == y
  | .arr xs, .arr ys => Json.beqElems xs ys
  | .obj xs, .obj ys => Json.beqFields xs ys
  | _, _ => false

/-- Pointwise equality test on lists of JSON values. -/
def Json.beqElems : List Json → List Json → Bool
  | [], [] => true
  | x :: xs, y :: ys => Json.beq x y && Json.beqElems xs ys
  | _, _ => false

/-- Pointwise equality test on JSON object fields. -/
def Json.beqFields : List (String × Json) → List (String × Json) → Bool
  | [], [] => true
  | (k, v) :: xs, (l, w) :: ys => k == l && Json.beq v w && Json.beqFields xs ys
  | _, _ => false

end

mutual

/-- The boolean test decides equality of JSON values. -/
theorem Json.beq_iff : ∀ x y : Json, Json.beq x y = true ↔ x = y
  | .null, .null => by simp [Json.beq]
  | .bool _, .bool _ => by simp [Json.beq]
  | .num _, .num _ => by simp [Json.beq]
  | .str _, .str _ => by simp [Json.beq]
  | .arr xs, .arr ys => by simpa [Json.beq] using Json.beqElems_iff xs ys
  | .obj xs, .obj ys => by simpa [Json.beq] using Json.beqFields_iff xs ys
  | .null, .bool _ | .null, .num _ | .null, .str _ | .null, .arr _ | .null, .obj _
  | .bool _, .null | .bool _, .num _ | .bool _, .str _ | .bool _, .arr _ | .bool _, .obj _
  | .num _, .null | .num _, .bool _ | .num _, .str _ | .num _, .arr _ | .num _, .obj _
  | .str _, .null | .str _, .bool _ | .str _, .num _ | .str _, .arr _ | .str _, .obj _
  | .arr _, .null | .arr _, .bool _ | .arr _, .num _ | .arr _, .str _ | .arr _, .obj _
  | .obj _, .null | .obj _, .bool _ | .obj _, .num _ | .obj _, .str _ | .obj _, .arr _ =>
    by simp [Json.beq]

/-- The elementwise test decides equality of JSON value lists. -/
theorem Json.beqElems_iff : ∀ xs ys : List Json, Json.beqElems xs ys = true ↔ xs = ys
  | [], [] => by simp [Json.beqElems]
  | [], _ :: _ => by simp [Json.beqElems]
  | _ :: _, [] => by simp [Json.beqElems]
  | x :: xs, y :: ys => by
    simp [Json.beqElems, Json.beq_iff x y, Json.beqElems_iff xs ys]

/-- The fieldwise test decides equality of JSON field lists. -/
theorem Json.beqFields_iff :
    ∀ xs ys : List (String × Json), Json.beqFields xs ys = true ↔ xs = ys
  | [], [] => by simp [Json.beqFields]
  | [], _ :: _ => by simp [Json.beqFields]
  | _ :: _, [] => by simp [Json.beqFields]
  | (k, v) :: xs, (l, w) :: ys => by
    simp [Json.beqFields, Json.beq_iff v w, Json.beqFields_iff xs ys, and_assoc]

end

instance : DecidableEq Json := fun x y =>
  decidable_of_iff (Json.beq x y = true) (Json.beq_iff x y)

/-- Python dict .get(key) / key-membership on a JSON object: the last
binding of the key, none when the key is absent or the value is not an
object. -/
def Json.get? : Json → String → Option Json
  | .obj fields, key => fields.reverse.lookup key
  | _, _ => none

/-- Python truthiness of a JSON-shaped value, as used by
`if review_data["suggested_corrections"]:`. -/
def Json.truthy : Json → Bool
  | .null => false
  | .bool b => b
  | .num n => n != 0
  | .str s => !s.isEmpty
  | .arr elems => !elems.isEmpty
  | .obj fields => !fields.isEmpty

/-! ## Python string primitives -/

/-- Python str.find(c): index of the first occurrence, or -1. -/
def pyFind (s : String) (c : Char) : Int :=
  match s.toList.findIdx? (· = c) with
  | some i => (i : Int)
  | none => -1

/-- Python str.rfind(c): index of the last occurrence, or -1. -/
def pyRfind (s : String) (c : Char) : Int :=
  match s.toList.reverse.findIdx? (· = c) with
  | some i => (s.toList.length : Int) - 1 - (i : Int)
  | none => -1

/-- Resolution of one Python slice endpoint against a length: negative
indices count from the end, and the result is clamped into [0, n]. -/
def pySliceIdx (n : Nat) (i : Int) : Nat :=
  if i < 0 then ((n : Int) + i).toNat else min i.toNat n

/-- Python s[a:b] for integer endpoints (negative indices allowed). -/
def pySlice (s : String) (a b : Int) : String :=
  let lo := pySliceIdx s.toList.length a
  let hi := pySliceIdx s.toList.length b
  String.mk ((s.toList.drop lo).take (hi - lo))

/-- Value of a list of decimal digit characters. -/
def digitsToNat (ds : List Char) : Nat :=
  ds.foldl (fun acc c => acc * 10 + (c.toNat - 48)) 0

/-- Python int(s) on a string: optional surrounding whitespace, optional
sign, then decimal digits; none models the ValueError raised otherwise.
(Python's digit-group underscores and non-ASCII digits are outside the
model; no input considered here uses them.) -/
def pyInt (s : String) : Option Int :=
  let t := ((s.toList.dropWhile Char.isWhitespace).reverse.dropWhile
      Char.isWhitespace).reverse
  match t with
  | '-' :: ds => if ds ≠ [] ∧ ds.all Char.isDigit then some (-(digitsToNat ds : Int)) else none
  | '+' :: ds => if ds ≠ [] ∧ ds.all Char.isDigit then some (digitsToNat ds : Int) else none
  | ds => if ds ≠ [] ∧ ds.all Char.isDigit then some (digitsToNat ds : Int) else none

/-! ## Model of json.loads -/

/-- Whitespace characters of the JSON grammar. -/
def isJsonWs (c : Char) : Bool :=
  c = ' ' || c = '\t' || c = '\n' || c = '\r'

/-- Skip leading JSON whitespace. -/
def skipWs : List Char → List Char
  | [] => []
  | c :: rest => if isJsonWs c then skipWs rest else c :: rest

/-- Value of a hexadecimal digit character, if any. -/
def hexVal (c : Char) : Option Nat :=
  if '0' ≤ c ∧ c ≤ '9' then some (c.toNat - 48)
  else if 'a' ≤ c ∧ c ≤ 'f' then some (c.toNat - 87)
  else if 'A' ≤ c ∧ c ≤ 'F' then some (c.toNat - 55)
  else none

/-- Body of a JSON string after the opening quote: returns the decoded
string and the input after the closing quote.  Strict mode: raw control
characters are rejected; the standard escapes are decoded. -/
def parseStringBody : Nat → List Char → List Char → Option (String × List Char)
  | 0, _, _ => none
  | _ + 1, _, [] => none
  | fuel + 1, acc, c :: rest =>
    if c = '"' then some (String.mk acc.reverse, rest)
    else if c = '\\' then
      match rest with
      | [] => none
      | e :: rest2 =>
        if e = '"' then parseStringBody fuel ('"' :: acc) rest2
        else if e = '\\' then parseStringBody fuel ('\\' :: acc) rest2
        else if e = '/' then parseStringBody fuel ('/' :: acc) rest2
        else if e = 'b' then parseStringBody fuel ('\x08' :: acc) rest2
        else if e = 'f' then parseStringBody fuel ('\x0c' :: acc) rest2
        else if e = 'n' then parseStringBody fuel ('\n' :: acc) rest2
        else if e = 'r' then parseStringBody fuel ('\r' :: acc) rest2
        else if e = 't' then parseStringBody fuel ('\t' :: acc) rest2
        else if e = 'u' then
          match rest2 with
          | h1 :: h2 :: h3 :: h4 :: rest3 =>
            match hexVal h1, hexVal h2, hexVal h3, hexVal h4 with
            | some a, some b, some c2, some d =>
              parseStringBody fuel (Char.ofNat (((a * 16 + b) * 16 + c2) * 16 + d) :: acc) rest3
            | _, _, _, _ => none
          | _ => none
        else none
    else if c.toNat < 32 then none
    else parseStringBody fuel (c :: acc) rest

/-- Split a maximal run of decimal digits off the front of the input. -/
def takeDigits : List Char → List Char × List Char
  | [] => ([], [])
  | c :: rest =>
    if c.isDigit then
      let (ds, r) := takeDigits rest
      (c :: ds, r)
    else ([], c :: rest)

/-- JSON integer numeral: optional minus, then either 0 or a nonzero-led
digit run; a following fraction or exponent marker is outside the integer
model and is treated as a parse failure. -/
def parseNumber (l : List Char) : Option (Json × List Char) :=
  let (neg, l1) :=
    match l with
    | '-' :: rest => (true, rest)
    | _ => (false, l)
  match l1 with
  | [] => none
  | c :: _ =>
    if c.isDigit then
      let (ds, rest) := takeDigits l1
      if ds.length > 1 ∧ ds.head? = some '0' then none
      else
        match rest with
        | '.' :: _ => none
        | 'e' :: _ => none
        | 'E' :: _ => none
        | _ =>
          let n : Int := (digitsToNat ds : Int)
          some (.num (if neg then -n else n), rest)
    else none

mutual

/-- One JSON value, preceded by optional whitespace; returns the value and
the unconsumed remainder. -/
def parseValue : Nat → List Char → Option (Json × List Char)
  | 0, _ => none
  | fuel + 1, l =>
    match skipWs l with
    | [] => none
    | c :: rest =>
      if c = '{' then
        match skipWs rest with
        | '}' :: r => some (.obj [], r)
        | l2 =>
          match parseFields fuel l2 with
          | some (fs, r) => some (.obj fs, r)
          | none => none
      else if c = '[' then
        match skipWs rest with
        | ']' :: r => some (.arr [], r)
        | l2 =>
          match parseElements fuel l2 with
          | some (es, r) => some (.arr es, r)
          | none => none
      else if c = '"' then
        match parseStringBody (rest.length + 1) [] rest with
        | some (s, r) => some (.str s, r)
        | none => none
      else if c = 'n' then
        match rest with
        | 'u' :: 'l' :: 'l' :: r => some (.null, r)
        | _ => none
      else if c = 't' then
        match rest with
        | 'r' :: 'u' :: 'e' :: r => some (.bool true, r)
        | _ => none
      else if c = 'f' then
        match rest with
        | 'a' :: 'l' :: 's' :: 'e' :: r => some (.bool false, r)
        | _ => none
      else parseNumber (c :: rest)

/-- Nonempty member list of a JSON object, positioned at the first key;
consumes through the closing brace. -/
def parseFields : Nat → List Char → Option (List (String × Json) × List Char)
  | 0, _ => none
  | fuel + 1, l =>
    match l with
    | '"' :: rest =>
      match parseStringBody (rest.length + 1) [] rest with
      | some (key, r1) =>
        match skipWs r1 with
        | ':' :: r2 =>
          match parseValue fuel r2 with
          | some (v, r3) =>
            match skipWs r3 with
            | ',' :: r4 =>
              match parseFields fuel (skipWs r4) with
              | some (fs, r5) => some ((key, v) :: fs, r5)
              | none => none
            | '}' :: r4 => some ([(key, v)], r4)
            | _ => none
          | none => none
        | _ => none
      | none => none
    | _ => none

/-- Nonempty element list of a JSON array, positioned at the first element;
consumes through the closing bracket. -/
def parseElements : Nat → List Char → Option (List Json × List Char)
  | 0, _ => none
  | fuel + 1, l =>
    match parseValue fuel l with
    | some (v, r1) =>
      match skipWs r1 with
      | ',' :: r2 =>
        match parseElements fuel r2 with
        | some (es, r3) => some (v :: es, r3)
        | none => none
      | ']' :: r2 => some ([v], r2)
      | _ => none
    | none => none

end

/-- Model of json.loads: one JSON document with optional surrounding
whitespace; anything else (including trailing data) fails, which in the
source surfaces as json.JSONDecodeError. -/
def jsonParse (s : String) : Option Json :=
  match parseValue (2 * s.toList.length + 8) s.toList with
  | some (v, rest) => if skipWs rest = [] then some v else none
  | none => none

/-! ## The backend model as an oracle

The AWS Bedrock backend is external nondeterminism: an Oracle gives, for
each invocation index within one run, either the generated text or the
exception the transport raised.  Every embedded function that can invoke
the backend threads the next invocation index, so the final index is the
number of generation calls made. -/

/-- Backend behaviour for one run: response text or raised exception, per
invocation index. -/
def Oracle : Type := Nat → Except String String

/-- Text that BaseAgent.call_claude (agent.py lines 22-46) hands back for
invocation k: the generated text, or, because the except-block catches
every exception and returns it as a string, the text "Error: " followed by
the exception. -/
def response (o : Oracle) (k : Nat) : String :=
  match o k with
  | .ok t => t
  | .error e => "Error: " ++ e

/-- BaseAgent.call_claude: never raises; returns the response text (or the
"Error: " string) and advances the invocation index. -/
def call_claude (o : Oracle) (k : Nat) : String × Nat :=
  (response o k, k + 1)

/-- The inline JSON-recovery block of agent.py (lines 83-93 and 283-293):
take the span from the first open brace to the last close brace and parse
it; if there is no such span or parsing fails, wrap the whole response
under the given fallback key ("analysis" for the analysis stage, "review"
for the review stage). -/
def tryExtractJson (fallbackKey : String) (result : String) : Json :=
  let jsonStart := pyFind result '{'
  let jsonEnd := pyRfind result '}' + 1
  if jsonStart ≥ 0 ∧ jsonEnd > jsonStart then
    match jsonParse (pySlice result jsonStart jsonEnd) with
    | some v => v
    | none => Json.obj [(fallbackKey, .str result)]
  else Json.obj [(fallbackKey, .str result)]

/-- quebec.py / test_main.py extract_json (quebec.py lines 71-83): the same
brace-span recovery with fallback key "raw_response". -/
def extract_json (text : String) : Json :=
  tryExtractJson "raw_response" text

/-! ## agent.py: the baseline pipeline -/

/-- Return shapes of DocumentAnalysisAgent.process: the error dict or the
analysis/text dict.  Prompt text is elided: it does not influence control
flow, and responses are drawn from the oracle. -/
inductive AnalysisOut where
  | error (msg : String)
  | result (documentAnalysis : Json) (textContent : String)
  deriving Repr, DecidableEq

/-- DocumentAnalysisAgent.process (agent.py lines 58-98). -/
def documentAnalysisProcess (o : Oracle) (k : Nat) (textContent : String) :
    AnalysisOut × Nat :=
  if textContent = "" then (.error "No text content provided", k)
  else
    let (analysisResult, k1) := call_claude o k
    (.result (tryExtractJson "analysis" analysisResult) textContent, k1)

/-- Return shapes of TranslationAgent.process. -/
inductive TranslationOut where
  | error (msg : String)
  | result (originalText translatedText targetLanguage : String)
  deriving Repr, DecidableEq

/-- TranslationAgent.process (agent.py lines 110-153).  The document
analysis feeds only the prompt text, which is elided. -/
def translationProcess (o : Oracle) (k : Nat) (textContent : String)
    (documentAnalysis : Json) (targetLanguage : String) : TranslationOut × Nat :=
  if textContent = "" then (.error "No text content provided", k)
  else
    let _ := documentAnalysis
    let (translation, k1) := call_claude o k
    (.result textContent translation targetLanguage, k1)

/-- Return shapes of ContextualEnhancementAgent.process. -/
inductive EnhanceOut where
  | error (msg : String)
  | result (enhancedTranslation : String)
  deriving Repr, DecidableEq

/-- ContextualEnhancementAgent.process (agent.py lines 165-196). -/
def contextualEnhancementProcess (o : Oracle) (k : Nat)
    (originalText translatedText targetLanguage : String) : EnhanceOut × Nat :=
  if translatedText = "" then (.error "No translated text provided", k)
  else
    let _ := (originalText, targetLanguage)
    let (enhanced, k1) := call_claude o k
    (.result enhanced, k1)

/-! ## QualityCheckAgent -/

/-- Three bounded excerpts of a text, as the review stage samples long
input (agent.py lines 222-232): Python slices t[:1000],
t[len(t)//2-500 : len(t)//2+500] and t[-1000:]. -/
structure TextSamples where
  beginning : String
  middle : String
  ending : String
  deriving Repr, DecidableEq

/-- The three sample slices of one text. -/
def samplesOf (t : String) : TextSamples where
  beginning := pySlice t 0 1000
  middle := pySlice t (((t.length / 2 : Nat) : Int) - 500) (((t.length / 2 : Nat) : Int) + 500)
  ending := pySlice t (-1000) (t.length : Int)

/-- Shape of the review prompt built by QualityCheckAgent.process (agent.py
lines 219-278): the full texts below the length threshold, the six samples
above it.  The literal prompt wording is elided; what is modelled is which
text spans the prompt embeds. -/
inductive ReviewPrompt where
  | full (originalText translatedText : String)
  | sampled (orig : TextSamples) (trans : TextSamples)
  deriving Repr, DecidableEq

/-- Review-prompt construction: branch on len(original_text) > 3000. -/
def buildReviewPrompt (originalText translatedText : String) : ReviewPrompt :=
  if originalText.length > 3000 then
    .sampled (samplesOf originalText) (samplesOf translatedText)
  else .full originalText translatedText

/-- Score coercion of agent.py lines 296-301 (and quebec.py lines 297-307):
dict .get default 0, a string is converted with int() falling back to 0 on
ValueError, and any other value passes through unchanged. -/
def coerceScore (v : Option Json) : Json :=
  match v.getD (.num 0) with
  | .str s =>
    match pyInt s with
    | some n => .num n
    | none => .num 0
  | w => w

/-- Python comparison value < n for an integer n: defined on ints and bools
(bool is an int subclass); any other operand raises TypeError, embedded as
the error case. -/
def pyLtInt (v : Json) (n : Int) : Except String Bool :=
  match v with
  | .num m => .ok (decide (m < n))
  | .bool b => .ok (decide ((if b then (1 : Int) else 0) < n))
  | _ => .error "TypeError: unorderable"

/-- The integer the gate actually compares against the threshold, when the
coerced score is of a comparable type (absent, int, bool or string). -/
def coercedScoreInt? (v : Option Json) : Option Int :=
  match coerceScore v with
  | .num n => some n
  | .bool b => some (if b then 1 else 0)
  | _ => none

/-- The baseline quality gate (agent.py line 306): coerced overall_quality
below 7, and suggested_corrections present with a truthy value.  Python's
and short-circuits, so the TypeError of an unorderable score surfaces only
when the comparison is reached. -/
def qualityGate (reviewData : Json) : Except String Bool :=
  match pyLtInt (coerceScore (reviewData.get? "overall_quality")) 7 with
  | .error e => .error e
  | .ok lt =>
    if lt then
      match reviewData.get? "suggested_corrections" with
      | some v => .ok v.truthy
      | none => .ok false
    else .ok false

/-- The dict QualityCheckAgent.process returns on success (agent.py lines
327-332). -/
structure QCRecord where
  originalText : String
  translatedText : String
  qualityReview : Json
  targetLanguage : String
  deriving Repr, DecidableEq

/-- Return shapes of QualityCheckAgent.process. -/
inductive QCOut where
  | error (msg : String)
  | result (r : QCRecord)
  deriving Repr, DecidableEq

/-- QualityCheckAgent.process (agent.py lines 207-332): validate inputs,
build the review prompt, have the model review, recover the review JSON,
and, when the gate passes, replace the translation with a second
corrective generation.  The outer Except is a raised Python exception
(TypeError from an unorderable score). -/
def qualityCheckProcess (o : Oracle) (k : Nat)
    (originalText translatedText targetLanguage : String) :
    Except String (QCOut × Nat) :=
  if originalText = "" ∨ translatedText = "" then
    .ok (.error "Missing original or translated text", k)
  else
    let _reviewPrompt := buildReviewPrompt originalText translatedText
    let (reviewResult, k1) := call_claude o k
    let reviewData := tryExtractJson "review" reviewResult
    match qualityGate reviewData with
    | .error e => .error e
    | .ok gate =>
      if gate then
        let (improvedTranslation, k2) := call_claude o k1
        .ok (.result ⟨originalText, improvedTranslation, reviewData, targetLanguage⟩, k2)
      else
        .ok (.result ⟨originalText, translatedText, reviewData, targetLanguage⟩, k1)

/-! ## TranslationWorkflow -/

/-- The two dict shapes TranslationWorkflow.process_document returns: the
early error/stage dict, or the final aggregate. -/
inductive PipelineOut where
  | errorResult (error stage : String)
  | final (originalText translatedText : String)
      (documentAnalysis qualityReview : Json) (targetLanguage : String)
  deriving Repr, DecidableEq

/-- TranslationWorkflow.process_document (agent.py lines 344-389).  The
outer Except is an exception escaping a stage; the Nat is the number of
generation calls made. -/
def process_document (o : Oracle) (textContent targetLanguage : String) :
    Except String (PipelineOut × Nat) :=
  let (analysisResult, k1) := documentAnalysisProcess o 0 textContent
  match analysisResult with
  | .error msg => .ok (.errorResult msg "document_analysis", k1)
  | .result documentAnalysis _ =>
    let (translationResult, k2) :=
      translationProcess o k1 textContent documentAnalysis targetLanguage
    match translationResult with
    | .error msg => .ok (.errorResult msg "translation", k2)
    | .result _ translatedText _ =>
      match qualityCheckProcess o k2 textContent translatedText targetLanguage with
      | .error e => .error e
      | .ok (.error msg, k3) => .ok (.errorResult msg "quality_check", k3)
      | .ok (.result rec, k3) =>
        let (enh, k4) :=
          contextualEnhancementProcess o k3 textContent rec.translatedText targetLanguage
        let enhancedTranslation :=
          match enh with
          | .result t => t
          | .error _ => rec.translatedText
        .ok (.final textContent enhancedTranslation documentAnalysis
          rec.qualityReview targetLanguage, k4)

/-! ## quebec.py: the Quebec French variant

quebec.py's invoke_bedrock_claude re-raises every exception, so stage
functions propagate the error case instead of swallowing it. -/

/-- quebec.py invoke_bedrock_claude (lines 31-69): returns the generated
text, or re-raises the caught exception. -/
def invoke_bedrock_claude (o : Oracle) (k : Nat) : Except String (String × Nat) :=
  match o k with
  | .ok t => .ok (t, k + 1)
  | .error e => .error e

/-- quebec.py analyze_document (lines 85-115). -/
def analyze_document (o : Oracle) (k : Nat) (textContent : String) :
    Except String (AnalysisOut × Nat) :=
  if textContent = "" then .ok (.error "No text content provided", k)
  else
    match invoke_bedrock_claude o k with
    | .error e => .error e
    | .ok (analysisResult, k1) =>
      .ok (.result (extract_json analysisResult) textContent, k1)

/-- quebec.py create_quebec_french_glossary (lines 117-138): one generation
call whose response is JSON-extracted. -/
def create_quebec_french_glossary (o : Oracle) (k : Nat) :
    Except String (Json × Nat) :=
  match invoke_bedrock_claude o k with
  | .error e => .error e
  | .ok (glossaryResult, k1) => .ok (extract_json glossaryResult, k1)

/-- quebec.py translate_document_to_quebec_french (lines 140-210): after
the empty-input check it builds the glossary (one call) and translates
(a second call).  Prompt text is elided. -/
def translate_document_to_quebec_french (o : Oracle) (k : Nat)
    (textContent : String) (documentAnalysis : Json) :
    Except String (TranslationOut × Nat) :=
  if textContent = "" then .ok (.error "No text content provided", k)
  else
    let _ := documentAnalysis
    match create_quebec_french_glossary o k with
    | .error e => .error e
    | .ok (_glossary, k1) =>
      match invoke_bedrock_claude o k1 with
      | .error e => .error e
      | .ok (translation, k2) =>
        .ok (.result textContent translation "Quebec French", k2)

/-- The Quebec-variant gate (quebec.py lines 294-312, test_main.py lines
223-241): both scores coerced, then correction when coerced
overall_quality is below 7 or coerced quebec_french_authenticity is below
8, and the key suggested_corrections is present (its value is not
inspected).  Python's or short-circuits, so the authenticity comparison is
reached only when the quality comparison is false. -/
def quebecQualityGate (reviewData : Json) : Except String Bool :=
  match pyLtInt (coerceScore (reviewData.get? "overall_quality")) 7 with
  | .error e => .error e
  | .ok ltq =>
    match (if ltq then Except.ok true
        else pyLtInt (coerceScore (reviewData.get? "quebec_french_authenticity")) 8) with
    | .error e => .error e
    | .ok low => .ok (low && (reviewData.get? "suggested_corrections").isSome)

/-- The dict check_quebec_french_quality returns on success (quebec.py
lines 337-340). -/
structure QCheckRecord where
  translatedText : String
  qualityReview : Json
  deriving Repr, DecidableEq

/-- Return shapes of check_quebec_french_quality. -/
inductive QCheckOut where
  | error (msg : String)
  | result (r : QCheckRecord)
  deriving Repr, DecidableEq

/-- quebec.py check_quebec_french_quality (lines 212-340), which is also
test_main.py lines 135-270 modulo prompt text: validate inputs, build the
review prompt with the same length-threshold sampling as the baseline,
review (one call), and when the Quebec gate passes replace the translation
with a corrective generation (a second call). -/
def check_quebec_french_quality (o : Oracle) (k : Nat)
    (originalText translatedText : String) : Except String (QCheckOut × Nat) :=
  if originalText = "" ∨ translatedText = "" then
    .ok (.error "Missing original or translated text", k)
  else
    let _reviewPrompt := buildReviewPrompt originalText translatedText
    match invoke_bedrock_claude o k with
    | .error e => .error e
    | .ok (reviewResult, k1) =>
      let reviewData := extract_json reviewResult
      match quebecQualityGate reviewData with
      | .error e => .error e
      | .ok gate =>
        if gate then
          match invoke_bedrock_claude o k1 with
          | .error e => .error e
          | .ok (improvedTranslation, k2) =>
            .ok (.result ⟨improvedTranslation, reviewData⟩, k2)
        else
          .ok (.result ⟨translatedText, reviewData⟩, k1)

/-- quebec.py enhance_quebec_french_translation (lines 342-379): returns
the input unchanged without a call when it is empty, else one enhancement
call. -/
def enhance_quebec_french_translation (o : Oracle) (k : Nat)
    (originalText translatedText : String) : Except String (String × Nat) :=
  if translatedText = "" then .ok (translatedText, k)
  else
    let _ := originalText
    invoke_bedrock_claude o k

/-- quebec.py process_document_for_quebec_french (lines 381-424).  An
exception raised by any call propagates out as the error case: the caller
then sees the raised exception, not a stage-tagged result dict. -/
def process_document_for_quebec_french (o : Oracle) (textContent : String) :
    Except String (PipelineOut × Nat) :=
  match analyze_document o 0 textContent with
  | .error e => .error e
  | .ok (.error msg, k1) => .ok (.errorResult msg "document_analysis", k1)
  | .ok (.result documentAnalysis _, k1) =>
    match translate_document_to_quebec_french o k1 textContent documentAnalysis with
    | .error e => .error e
    | .ok (.error msg, k2) => .ok (.errorResult msg "translation", k2)
    | .ok (.result _ translatedText _, k2) =>
      match check_quebec_french_quality o k2 textContent translatedText with
      | .error e => .error e
      | .ok (.error msg, k3) => .ok (.errorResult msg "quality_check", k3)
      | .ok (.result rec, k3) =>
        match enhance_quebec_french_translation o k3 textContent rec.translatedText with
        | .error e => .error e
        | .ok (enhanced, k4) =>
          .ok (.final textContent enhanced documentAnalysis
            rec.qualityReview "Quebec French", k4)

/-! ## The extraction algorithm as the specification words it

The spec (section 4.2) describes a fence-aware three-step priority
extraction.  The source's extract_json has no fence handling, so the
spec's algorithm is modelled here separately, for comparison. -/

/-- Index of the first occurrence of a pattern inside a character list. -/
def findSub (pat : List Char) : List Char → Option Nat
  | [] => if pat = [] then some 0 else none
  | c :: rest =>
    if pat.isPrefixOf (c :: rest) then some 0
    else (findSub pat rest).map (· + 1)

/-- Span strictly between an opening tag and the next triple-backtick
fence, if both are present. -/
def spanInsideFence (l tag : List Char) : Option (List Char) :=
  match findSub tag l with
  | none => none
  | some i =>
    let afterTag := l.drop (i + tag.length)
    match findSub ['`', '`', '`'] afterTag with
    | none => none
    | some j => some (afterTag.take j)

/-- Modelled from the spec (section 4.2 of spec.md, the algorithm the
claim C4 describes; no function of the source implements it): first a
fenced block tagged as JSON, else a generic fenced block, else the
first-to-last brace span, with the raw_response fallback whenever parsing
fails. -/
def extractJsonSpecAlgorithm (text : String) : Json :=
  let l := text.toList
  match spanInsideFence l ['`', '`', '`', 'j', 's', 'o', 'n'] with
  | some span =>
    (jsonParse (String.mk span)).getD (Json.obj [("raw_response", .str text)])
  | none =>
    match spanInsideFence l ['`', '`', '`'] with
    | some span =>
      (jsonParse (String.mk span)).getD (Json.obj [("raw_response", .str text)])
    | none => extract_json text

/-! ## Concrete runs

Fixed oracles and texts used to exercise the embedded pipeline on
concrete inputs. -/

/-- Oracle answering every invocation with the same text. -/
def constOracle (t : String) : Oracle := fun _ => .ok t

/-- Oracle answering the first invocations from a list, deferring to a base
oracle beyond it. -/
def withResponses (rs : List (Except String String)) (o : Oracle) : Oracle :=
  fun n => (rs[n]?).getD (o n)

/-- Review JSON with a failing overall quality and a nonempty correction
hint. -/
def reviewQuality5 : String :=
  "\x7b\"overall_quality\": 5, \"suggested_corrections\": \"fix\"\x7d"

/-- Review JSON with overall quality 6 and a nonempty correction hint. -/
def reviewQuality6 : String :=
  "\x7b\"overall_quality\": 6, \"suggested_corrections\": \"fix\"\x7d"

/-- Review JSON with overall quality 7 and a nonempty correction hint. -/
def reviewQuality7 : String :=
  "\x7b\"overall_quality\": 7, \"suggested_corrections\": \"fix\"\x7d"

/-- Quebec review JSON with high overall quality, low authenticity, and an
empty suggested_corrections value. -/
def quebecReview97 : String :=
  "\x7b\"overall_quality\": 9, \"quebec_french_authenticity\": 7, \"suggested_corrections\": \"\"\x7d"

/-- Oracle of the run in which the enhancement stage receives an empty
translation: analysis a, translation T, failing review, empty corrective
rewrite. -/
def oracleSwallow (a : String) (o : Oracle) : Oracle :=
  withResponses [.ok a, .ok "T", .ok reviewQuality5, .ok ""] o

/-- Oracle of the run whose second (translation) call raises. -/
def oracleBoom (e : String) : Oracle :=
  withResponses [.ok "A", .error e] (constOracle "R")

/-- Model response that wraps a JSON object in a tagged code fence after a
stray opening brace, separating the spec's fence-aware algorithm from the
source's brace scan. -/
def fencedWithStrayBrace : String :=
  "\x7b oops ```json\n\x7b\"a\": 1\x7d\n``` "

/-- A 3001-character text, just above the review-sampling threshold. -/
def sample3001 : String := String.mk (List.replicate 3001 'a')

/-- Oracle whose review verdict is quality 6 with corrections; the next
response is the corrective rewrite C. -/
def oracleQ6 : Oracle := withResponses [.ok reviewQuality6, .ok "C"] (constOracle "")

/-- Oracle whose review verdict is quality 7 with corrections. -/
def oracleQ7 : Oracle := withResponses [.ok reviewQuality7] (constOracle "")

/-- Quebec review JSON with both scores passing their thresholds. -/
def quebecReview98 : String :=
  "\x7b\"overall_quality\": 9, \"quebec_french_authenticity\": 8, \"suggested_corrections\": \"\"\x7d"

/-- Oracle whose Quebec review has authenticity below 8; the next response
is the corrective rewrite C. -/
def oracleQ97 : Oracle := withResponses [.ok quebecReview97, .ok "C"] (constOracle "")

/-- Oracle whose Quebec review passes both thresholds. -/
def oracleQ98 : Oracle := withResponses [.ok quebecReview98] (constOracle "")

/-! ## Shared lemmas -/

/-- When the coerced score has a comparable type, the Python comparison
returns the boolean answer instead of raising. -/
theorem pyLtInt_coerceScore (v : Option Json) (m n : Int)
    (h : coercedScoreInt? v = some m) :
    pyLtInt (coerceScore v) n = .ok (decide (m < n)) := by
  unfold coercedScoreInt? at h
  cases hc : coerceScore v <;> rw [hc] at h <;> simp only [Option.some.injEq] at h
  · cases h
  · subst h; rfl
  · subst h; rfl
  · cases h
  · cases h
  · cases h

/-- Unfolding of the baseline gate when the coerced score is comparable:
the gate passes exactly when the score is below 7 and a truthy
suggested_corrections value is present. -/
theorem qualityGate_of_comparable (rd : Json) (m : Int)
    (h : coercedScoreInt? (rd.get? "overall_quality") = some m) :
    qualityGate rd =
      .ok (decide (m < 7) &&
        ((rd.get? "suggested_corrections").map Json.truthy).getD false) := by
  unfold qualityGate
  rw [pyLtInt_coerceScore _ m 7 h]
  cases hm : decide (m < 7) <;>
    cases hv : rd.get? "suggested_corrections" <;> simp [hm, hv]

/-- Unfolding of the Quebec gate when both coerced scores are comparable:
the gate passes exactly when either score is below its threshold and the
key suggested_corrections is present. -/
theorem quebecQualityGate_of_comparable (rd : Json) (oq qa : Int)
    (h1 : coercedScoreInt? (rd.get? "overall_quality") = some oq)
    (h2 : coercedScoreInt? (rd.get? "quebec_french_authenticity") = some qa) :
    quebecQualityGate rd =
      .ok ((decide (oq < 7) || decide (qa < 8)) &&
        (rd.get? "suggested_corrections").isSome) := by
  unfold quebecQualityGate
  rw [pyLtInt_coerceScore _ oq 7 h1]
  cases hq : decide (oq < 7) <;>
    simp [hq, pyLtInt_coerceScore (rd.get? "quebec_french_authenticity") qa 8 h2]

/-- Behaviour of the baseline quality check on nonempty inputs, indexed by
the gate's verdict on the recovered review record: a raised TypeError
propagates, a passing gate costs one extra call and replaces the
translation with the second response, a failing gate keeps the draft. -/
theorem qualityCheckProcess_eq (o : Oracle) (k : Nat) (orig trans tl : String)
    (he : ¬(orig = "" ∨ trans = "")) :
    qualityCheckProcess o k orig trans tl =
      match qualityGate (tryExtractJson "review" (response o k)) with
      | .error e => .error e
      | .ok true =>
        .ok (.result ⟨orig, response o (k + 1),
          tryExtractJson "review" (response o k), tl⟩, k + 2)
      | .ok false =>
        .ok (.result ⟨orig, trans,
          tryExtractJson "review" (response o k), tl⟩, k + 1) := by
  unfold qualityCheckProcess call_claude
  rw [if_neg he]
  cases hg : qualityGate (tryExtractJson "review" (response o k)) with
  | error e => simp [hg]
  | ok g => cases g <;> simp [hg]

/-- The review record inside a successful quality-check result is always
the JSON recovered from the first review response, whichever way the gate
went. -/
theorem qualityCheckProcess_review (o : Oracle) (k : Nat)
    (orig trans tl : String) (rec : QCRecord) (k2 : Nat)
    (h : qualityCheckProcess o k orig trans tl = .ok (.result rec, k2)) :
    rec.qualityReview = tryExtractJson "review" (response o k) := by
  by_cases he : orig = "" ∨ trans = ""
  · unfold qualityCheckProcess at h
    rw [if_pos he] at h
    simp at h
  · rw [qualityCheckProcess_eq o k orig trans tl he] at h
    cases hg : qualityGate (tryExtractJson "review" (response o k)) with
    | error e => rw [hg] at h; simp at h
    | ok g =>
      rw [hg] at h
      cases g <;> simp at h <;> rw [← h.1]

/-! ## Claim C9 -/

/-- C9: for the empty input string, process_document returns immediately
with the error field set and the stage field equal to "document_analysis",
and zero generation calls are made during the run. -/
theorem c9_empty_input_rejected_before_any_call (o : Oracle) :
    process_document o "" "French" =
      .ok (.errorResult "No text content provided" "document_analysis", 0) := rfl

/-! ## Claim C2 -/

/-- C2 counterexample: the claim quantifies over every stage, but an error
marker from the Enhance stage does not halt the pipeline.  In this run the
corrective rewrite returns the empty string, so the Enhance stage's output
record carries the error marker, yet the orchestrator returns a final
record with no error field (the empty quality-stage translation is
silently substituted). -/
theorem c2_counterexample_enhance_error_swallowed :
    contextualEnhancementProcess (oracleSwallow "A" (constOracle "")) 4 "x" "" "French" =
      (.error "No translated text provided", 4)
    ∧ process_document (oracleSwallow "A" (constOracle "")) "x" "French" =
      .ok (.final "x" "" (Json.obj [("analysis", .str "A")])
        (Json.obj [("overall_quality", .num 5), ("suggested_corrections", .str "fix")])
        "French", 4) :=
  ⟨rfl, rfl⟩

/-- C2 (amended): an error marker from any of the first three stages
(document analysis, translation, quality check) halts the pipeline at once
with the error and stage fields set and no further generation call; the
Translate stage can only report an error on empty input, which the Analyze
stage already intercepts, so its halt branch is unreachable; and an error
marker from the Enhance stage does not halt the pipeline — the
orchestrator silently falls back to the quality-stage translation and
returns a final record with no error field. -/
theorem c2_fail_fast_amended :
    (∀ o : Oracle,
      process_document o "" "French" =
        .ok (.errorResult "No text content provided" "document_analysis", 0))
    ∧ (∀ (a : String) (o : Oracle),
      process_document (withResponses [.ok a, .ok ""] o) "x" "French" =
        .ok (.errorResult "Missing original or translated text" "quality_check", 2))
    ∧ (∀ (a : String) (o : Oracle),
      contextualEnhancementProcess (oracleSwallow a o) 4 "x" "" "French" =
        (.error "No translated text provided", 4)
      ∧ process_document (oracleSwallow a o) "x" "French" =
        .ok (.final "x" "" (tryExtractJson "analysis" a)
          (Json.obj [("overall_quality", .num 5), ("suggested_corrections", .str "fix")])
          "French", 4)) :=
  ⟨fun _ => rfl, fun _ _ => rfl, fun _ _ => ⟨rfl, rfl⟩⟩

/-! ## Claim C5 -/

/-- C5 counterexample: a backend failure in the translation call is not
raised as a typed error by agent.py's client; the call returns the string
"Error: boom", which the stage delivers downstream as the translated text,
and the pipeline ends in a final record with no error field and no failing
stage name.  The quebec.py client does re-raise, but the raised exception
then escapes the workflow uncaught instead of becoming a stage-tagged
result. -/
theorem c5_counterexample_failure_delivered_as_text :
    translationProcess (oracleBoom "boom") 1 "x" (Json.obj []) "French" =
      (.result "x" "Error: boom" "French", 2)
    ∧ process_document (oracleBoom "boom") "x" "French" =
      .ok (.final "x" "R" (Json.obj [("analysis", .str "A")])
        (Json.obj [("review", .str "R")]) "French", 4)
    ∧ process_document_for_quebec_french (fun _ => .error "boom") "x" =
      .error "boom" :=
  ⟨rfl, rfl, rfl⟩

/-- C5 (amended): on backend failure, agent.py's call_claude catches every
exception and returns the string "Error: " plus the cause, which flows to
downstream stages and the caller as if it were generated text, with no
stage-level error; quebec.py's invoke_bedrock_claude re-raises instead,
and the raised exception propagates out of the Quebec workflow uncaught,
so the caller sees the exception rather than a result naming the failing
stage. -/
theorem c5_generation_failure_amended :
    (∀ (o : Oracle) (k : Nat) (e : String), o k = .error e →
      call_claude o k = ("Error: " ++ e, k + 1))
    ∧ (∀ (o : Oracle) (k : Nat) (e : String), o k = .error e →
      invoke_bedrock_claude o k = .error e)
    ∧ (∀ e : String,
      translationProcess (oracleBoom e) 1 "x" (Json.obj []) "French" =
        (.result "x" ("Error: " ++ e) "French", 2))
    ∧ (∀ e : String,
      process_document (oracleBoom e) "x" "French" =
        .ok (.final "x" "R" (Json.obj [("analysis", .str "A")])
          (Json.obj [("review", .str "R")]) "French", 4))
    ∧ (∀ e : String,
      process_document_for_quebec_french (fun _ => .error e) "x" = .error e) := by
  refine ⟨?_, ?_, fun e => rfl, fun e => rfl, fun e => rfl⟩
  · intro o k e h
    unfold call_claude response
    rw [h]
  · intro o k e h
    unfold invoke_bedrock_claude
    rw [h]

/-- C5 witness: the two hypotheses of the amended theorem discharged at a
concretely failing oracle. -/
theorem c5_generation_failure_amended_witness :
    call_claude (fun _ => .error "boom") 0 = ("Error: " ++ "boom", 0 + 1)
    ∧ invoke_bedrock_claude (fun _ => .error "boom") 0 = .error "boom" :=
  ⟨c5_generation_failure_amended.1 (fun _ => .error "boom") 0 "boom" rfl,
   c5_generation_failure_amended.2.1 (fun _ => .error "boom") 0 "boom" rfl⟩

/-! ## Slicing lemmas for the review sampling -/

/-- Length of a string is the length of its character list. -/
theorem string_length_toList (t : String) : t.length = t.toList.length := by
  cases t; rfl

/-- Unfolding of a Python slice to its clamped endpoints. -/
theorem pySlice_eq (t : String) (a b : Int) :
    pySlice t a b = String.mk ((t.toList.drop (pySliceIdx t.toList.length a)).take
      (pySliceIdx t.toList.length b - pySliceIdx t.toList.length a)) := rfl

/-- The last review sample is the slice from index -1000 to the end. -/
theorem samplesOf_ending_eq (t : String) :
    (samplesOf t).ending = pySlice t (-1000) (t.length : Int) := rfl

/-- The middle review sample is the slice of half a thousand characters to
each side of the midpoint. -/
theorem samplesOf_middle_eq (t : String) :
    (samplesOf t).middle =
      pySlice t (((t.length / 2 : Nat) : Int) - 500) (((t.length / 2 : Nat) : Int) + 500) := rfl

/-- Length of a Python slice: the clamped endpoint difference, further
bounded by the characters available after the start. -/
theorem pySlice_length (t : String) (a b : Int) :
    (pySlice t a b).length =
      min (pySliceIdx t.toList.length b - pySliceIdx t.toList.length a)
        (t.toList.length - pySliceIdx t.toList.length a) := by
  rw [pySlice_eq, String.length_mk, List.length_take, List.length_drop]

/-- The first review sample is the first thousand characters (all of the
text when it is shorter). -/
theorem samplesOf_beginning (t : String) :
    (samplesOf t).beginning = String.mk (t.toList.take 1000) := by
  have h0 : pySliceIdx t.toList.length 0 = 0 := by
    unfold pySliceIdx; split <;> omega
  have h1 : pySliceIdx t.toList.length 1000 = min 1000 t.toList.length := by
    unfold pySliceIdx; split <;> omega
  have hb : (samplesOf t).beginning = pySlice t 0 1000 := rfl
  rw [hb, pySlice_eq, h0, h1]
  rw [List.drop_zero, Nat.sub_zero]
  rcases Nat.le_total 1000 t.toList.length with hc | hc
  · rw [Nat.min_eq_left hc]
  · rw [Nat.min_eq_right hc, List.take_of_length_le hc, List.take_length]

/-- Above the threshold, the middle review sample is the thousand
characters centred at the midpoint. -/
theorem samplesOf_middle_long (t : String) (h : t.length > 3000) :
    (samplesOf t).middle =
      String.mk ((t.toList.drop (t.length / 2 - 500)).take 1000) := by
  have hl : t.length = t.toList.length := string_length_toList t
  have hlo : pySliceIdx t.toList.length (((t.length / 2 : Nat) : Int) - 500)
      = t.length / 2 - 500 := by
    rw [hl] at h ⊢
    unfold pySliceIdx; split <;> omega
  have hhi : pySliceIdx t.toList.length (((t.length / 2 : Nat) : Int) + 500)
      = t.length / 2 + 500 := by
    rw [hl] at h ⊢
    unfold pySliceIdx; split <;> omega
  rw [samplesOf_middle_eq, pySlice_eq, hlo, hhi]
  have harith : (t.length / 2 + 500) - (t.length / 2 - 500) = 1000 := by
    rw [hl] at h ⊢
    omega
  rw [harith]

/-- Above the threshold, the last review sample is the final thousand
characters. -/
theorem samplesOf_ending_long (t : String) (h : t.length > 3000) :
    (samplesOf t).ending = String.mk (t.toList.drop (t.length - 1000)) := by
  have hl : t.length = t.toList.length := string_length_toList t
  have hlo : pySliceIdx t.toList.length (-1000) = t.length - 1000 := by
    rw [hl] at h ⊢
    unfold pySliceIdx; split <;> omega
  have hhi : pySliceIdx t.toList.length ((t.length : Nat) : Int) = t.length := by
    rw [hl] at h ⊢
    unfold pySliceIdx; split <;> omega
  rw [samplesOf_ending_eq, pySlice_eq, hlo, hhi]
  rw [List.take_of_length_le (by rw [List.length_drop]; omega)]

/-- Every review sample of any text has at most a thousand characters. -/
theorem samplesOf_length_le (t : String) :
    (samplesOf t).beginning.length ≤ 1000
    ∧ (samplesOf t).middle.length ≤ 1000
    ∧ (samplesOf t).ending.length ≤ 1000 := by
  refine ⟨?_, ?_, ?_⟩
  · rw [samplesOf_beginning, String.length_mk, List.length_take]
    omega
  · rw [samplesOf_middle_eq, pySlice_length]
    unfold pySliceIdx
    split <;> split <;> omega
  · rw [samplesOf_ending_eq, pySlice_length]
    unfold pySliceIdx
    split <;> split <;> omega

/-- Above the threshold, every review sample of the original text has
exactly a thousand characters. -/
theorem samplesOf_length_long (t : String) (h : t.length > 3000) :
    (samplesOf t).beginning.length = 1000
    ∧ (samplesOf t).middle.length = 1000
    ∧ (samplesOf t).ending.length = 1000 := by
  have hl : t.length = t.toList.length := string_length_toList t
  refine ⟨?_, ?_, ?_⟩
  · rw [samplesOf_beginning, String.length_mk, List.length_take]
    rw [hl] at h
    omega
  · rw [samplesOf_middle_long t h, String.length_mk, List.length_take, List.length_drop]
    rw [hl] at h ⊢
    omega
  · rw [samplesOf_ending_long t h, String.length_mk, List.length_drop]
    rw [hl] at h ⊢
    omega

/-- The threshold text is 3001 characters long. -/
theorem sample3001_length : sample3001.length > 3000 := by
  rw [sample3001, String.length_mk, List.length_replicate]
  omega

/-! ## Claim C6 -/

/-- C6: the review prompt embeds the full original and translated texts
exactly when the original has at most 3000 characters; above that it
embeds three samples of each text — the first 1000 characters, 1000
characters centred at the midpoint and the last 1000 characters — each
sample of the original being exactly 1000 characters, so none of them is
the full original; the translated text is sampled by the same slice
formulas with every sample bounded by 1000 characters. -/
theorem c6_review_sampling_threshold :
    (∀ orig trans : String, orig.length ≤ 3000 →
        buildReviewPrompt orig trans = .full orig trans)
    ∧ (∀ orig trans : String, orig.length > 3000 →
        buildReviewPrompt orig trans = .sampled (samplesOf orig) (samplesOf trans))
    ∧ (∀ t : String,
        (samplesOf t).beginning = String.mk (t.toList.take 1000)
        ∧ (samplesOf t).beginning.length ≤ 1000
        ∧ (samplesOf t).middle.length ≤ 1000
        ∧ (samplesOf t).ending.length ≤ 1000)
    ∧ (∀ orig : String, orig.length > 3000 →
        (samplesOf orig).beginning.length = 1000
        ∧ (samplesOf orig).middle =
            String.mk ((orig.toList.drop (orig.length / 2 - 500)).take 1000)
        ∧ (samplesOf orig).middle.length = 1000
        ∧ (samplesOf orig).ending = String.mk (orig.toList.drop (orig.length - 1000))
        ∧ (samplesOf orig).ending.length = 1000
        ∧ (samplesOf orig).beginning ≠ orig
        ∧ (samplesOf orig).middle ≠ orig
        ∧ (samplesOf orig).ending ≠ orig) := by
  refine ⟨?_, ?_, ?_, ?_⟩
  · intro orig trans h
    unfold buildReviewPrompt
    rw [if_neg (by omega)]
  · intro orig trans h
    unfold buildReviewPrompt
    rw [if_pos h]
  · intro t
    exact ⟨samplesOf_beginning t, (samplesOf_length_le t).1,
      (samplesOf_length_le t).2.1, (samplesOf_length_le t).2.2⟩
  · intro orig h
    have hlen := samplesOf_length_long orig h
    refine ⟨hlen.1, samplesOf_middle_long orig h, hlen.2.1,
      samplesOf_ending_long orig h, hlen.2.2, ?_, ?_, ?_⟩
    · intro hc
      have := hlen.1
      rw [hc] at this
      omega
    · intro hc
      have := hlen.2.1
      rw [hc] at this
      omega
    · intro hc
      have := hlen.2.2
      rw [hc] at this
      omega

/-- C6 witness: the theorem applied below the threshold at a two-character
text and above it at the 3001-character text. -/
theorem c6_review_sampling_threshold_witness :
    buildReviewPrompt "ab" "t" = .full "ab" "t"
    ∧ buildReviewPrompt sample3001 "t" = .sampled (samplesOf sample3001) (samplesOf "t")
    ∧ (samplesOf sample3001).ending.length = 1000 :=
  ⟨c6_review_sampling_threshold.1 "ab" "t" (by decide),
   c6_review_sampling_threshold.2.1 sample3001 "t" sample3001_length,
   (c6_review_sampling_threshold.2.2.2 sample3001 sample3001_length).2.2.2.2.1⟩

/-! ## Extraction lemmas (claims C3 and C4) -/

theorem string_mk_toList (s : String) : String.mk s.toList = s := by
  cases s; rfl

theorem skipWs_cons_not (c : Char) (l : List Char) (h : isJsonWs c = false) :
    skipWs (c :: l) = c :: l := by
  unfold skipWs
  rw [h]
  simp

theorem parseValue_obj_of_brace (fuel : Nat) (l : List Char) (v : Json) (r : List Char)
    (hh : l.head? = some '{') (hp : parseValue fuel l = some (v, r)) :
    ∃ fs, v = Json.obj fs := by
  cases fuel with
  | zero => simp [parseValue] at hp
  | succ n =>
    obtain ⟨rest, hl⟩ : ∃ rest, l = '{' :: rest := by
      cases l with
      | nil => simp at hh
      | cons c t =>
        simp at hh
        exact ⟨t, by rw [hh]⟩
    subst hl
    rw [parseValue, skipWs_cons_not '{' rest (by decide)] at hp
    simp only [reduceIte] at hp
    split at hp
    · simp at hp
      exact ⟨[], hp.1.symm⟩
    · split at hp
      · simp at hp
        exact ⟨_, hp.1.symm⟩
      · simp at hp

theorem jsonParse_obj_of_brace (s : String) (v : Json)
    (hh : s.toList.head? = some '{') (hp : jsonParse s = some v) :
    ∃ fs, v = Json.obj fs := by
  unfold jsonParse at hp
  cases hpv : parseValue (2 * s.toList.length + 8) s.toList with
  | none => rw [hpv] at hp; simp at hp
  | some p =>
    obtain ⟨v2, r⟩ := p
    rw [hpv] at hp
    simp at hp
    obtain ⟨fs, hv⟩ := parseValue_obj_of_brace _ s.toList v2 r hh hpv
    exact ⟨fs, by rw [← hp.2]; exact hv⟩



theorem pyFind_head (s : String) (c : Char) (rest : List Char)
    (h : s.toList = c :: rest) : pyFind s c = 0 := by
  unfold pyFind
  rw [h]
  simp [List.findIdx?_cons]

theorem pyRfind_last (s : String) (c : Char) (h : s.toList.getLast? = some c) :
    pyRfind s c = (s.toList.length : Int) - 1 := by
  unfold pyRfind
  have hrev : s.toList.reverse.head? = some c := by
    rw [List.head?_reverse]; exact h
  cases hr : s.toList.reverse with
  | nil => rw [hr] at hrev; simp at hrev
  | cons d t =>
    rw [hr] at hrev
    simp at hrev
    rw [hrev]
    simp [List.findIdx?_cons]

theorem pySlice_zero_length (s : String) :
    pySlice s 0 (s.toList.length : Int) = s := by
  have h1 : pySliceIdx s.toList.length 0 = 0 := by
    unfold pySliceIdx; split <;> omega
  have h2 : pySliceIdx s.toList.length (s.toList.length : Int) = s.toList.length := by
    unfold pySliceIdx; split <;> omega
  rw [pySlice_eq, h1, h2]
  rw [List.drop_zero, Nat.sub_zero, List.take_length, string_mk_toList]

theorem pyFind_spec (s : String) (c : Char) (h : pyFind s c ≥ 0) :
    ∃ i : Nat, pyFind s c = (i : Int) ∧ i < s.toList.length
      ∧ s.toList[i]? = some c := by
  cases hf : s.toList.findIdx? (· = c) with
  | none =>
    have hneg : pyFind s c = -1 := by unfold pyFind; rw [hf]
    omega
  | some i =>
    have hval : pyFind s c = (i : Int) := by unfold pyFind; rw [hf]
    obtain ⟨hlt, hpi, -⟩ := List.findIdx?_eq_some_iff_getElem.mp hf
    simp at hpi
    refine ⟨i, hval, hlt, ?_⟩
    rw [List.getElem?_eq_getElem hlt]
    simpa using hpi

theorem pyRfind_bounds (s : String) (c : Char) (h : pyRfind s c ≥ 0) :
    ∃ m : Nat, pyRfind s c + 1 = (m : Int) ∧ 0 < m ∧ m ≤ s.toList.length := by
  cases hf : s.toList.reverse.findIdx? (· = c) with
  | none =>
    have hneg : pyRfind s c = -1 := by unfold pyRfind; rw [hf]
    omega
  | some j =>
    have hval : pyRfind s c = (s.toList.length : Int) - 1 - (j : Int) := by
      unfold pyRfind; rw [hf]
    obtain ⟨hlt, -, -⟩ := List.findIdx?_eq_some_iff_getElem.mp hf
    rw [List.length_reverse] at hlt
    rw [hval]
    exact ⟨s.toList.length - j, by omega, by omega, by omega⟩




theorem toList_mk (l : List Char) : (String.mk l).toList = l := rfl

theorem string_toList_append (a b : String) :
    (a ++ b).toList = a.toList ++ b.toList := rfl

theorem findIdx?_head_self (c : Char) (l : List Char) (h : l.head? = some c) :
    l.findIdx? (· = c) = some 0 := by
  cases l with
  | nil => simp at h
  | cons d t =>
    simp at h
    subst h
    simp [List.findIdx?_cons]

theorem findIdx?_none_of_not_mem (c : Char) (l : List Char) (h : c ∉ l) :
    l.findIdx? (· = c) = none := by
  rw [List.findIdx?_eq_none_iff]
  intro x hx
  simp
  intro he
  exact h (he ▸ hx)

/-- Every value of the brace-span extraction is a JSON object: the span
begins at an open brace, so a successful parse yields an object, and both
failure paths return the fallback dictionary. -/
theorem tryExtractJson_obj (key s : String) :
    ∃ fs, tryExtractJson key s = Json.obj fs := by
  unfold tryExtractJson
  by_cases hcond : pyFind s '{' ≥ 0 ∧ pyRfind s '}' + 1 > pyFind s '{'
  · rw [if_pos hcond]
    obtain ⟨hge, hgt⟩ := hcond
    obtain ⟨i, hfi, hilt, hgi⟩ := pyFind_spec s '{' hge
    have hrge : pyRfind s '}' ≥ 0 := by omega
    obtain ⟨m, hm, hmpos, hmle⟩ := pyRfind_bounds s '}' hrge
    have him : i < m := by
      rw [hfi] at hgt
      rw [hm] at hgt
      exact_mod_cast hgt
    have hlo : pySliceIdx s.toList.length (pyFind s '{') = i := by
      rw [hfi]; unfold pySliceIdx; split <;> omega
    have hhi : pySliceIdx s.toList.length (pyRfind s '}' + 1) = m := by
      rw [hm]; unfold pySliceIdx; split <;> omega
    have hspan : (pySlice s (pyFind s '{') (pyRfind s '}' + 1)).toList.head? = some '{' := by
      rw [pySlice_eq, hlo, hhi, toList_mk]
      rw [List.drop_eq_getElem_cons hilt]
      obtain ⟨w, hw⟩ : ∃ w, m - i = w + 1 := ⟨m - i - 1, by omega⟩
      rw [hw, List.take_succ_cons]
      rw [List.getElem?_eq_getElem hilt] at hgi
      simp at hgi ⊢
      exact hgi
    cases hp : jsonParse (pySlice s (pyFind s '{') (pyRfind s '}' + 1)) with
    | none => exact ⟨[(key, .str s)], rfl⟩
    | some v =>
      obtain ⟨fs, hv⟩ := jsonParse_obj_of_brace _ v hspan hp
      exact ⟨fs, hv⟩
  · rw [if_neg hcond]
    exact ⟨[(key, .str s)], rfl⟩




/-- When the whole string is exactly the text of a JSON object (it begins
with the open brace and ends with the close brace), the brace span is the
whole string, so extraction returns exactly the parsed value. -/
theorem extract_json_of_object_text (s : String) (v : Json)
    (hh : s.toList.head? = some '{') (hl : s.toList.getLast? = some '}')
    (hp : jsonParse s = some v) : extract_json s = v := by
  obtain ⟨rest, hcons⟩ : ∃ rest, s.toList = '{' :: rest := by
    cases hx : s.toList with
    | nil => rw [hx] at hh; simp at hh
    | cons c t =>
      rw [hx] at hh
      simp at hh
      exact ⟨t, by rw [hh]⟩
  have hn : 0 < s.toList.length := by rw [hcons]; simp
  have hfind := pyFind_head s '{' rest hcons
  have hrfind := pyRfind_last s '}' hl
  simp only [extract_json, tryExtractJson, hfind, hrfind]
  rw [if_pos (by constructor <;> omega)]
  have harr : ((s.toList.length : Int) - 1) + 1 = (s.toList.length : Int) := by omega
  rw [harr, pySlice_zero_length, hp]

/-- When the text has no open brace at all, extraction falls back to the
raw_response wrapper. -/
theorem extract_json_no_brace (s : String) (h : '{' ∉ s.toList) :
    extract_json s = Json.obj [("raw_response", .str s)] := by
  have hfind : pyFind s '{' = -1 := by
    unfold pyFind
    rw [findIdx?_none_of_not_mem '{' s.toList h]
  simp only [extract_json, tryExtractJson, hfind]
  rw [if_neg (by omega)]

/-- The brace scan recovers a JSON object embedded in any brace-free
framing: the first open brace of the whole text is the object's, the last
close brace is the object's, and the span between them is exactly the
object text. -/
theorem extract_json_framed (pre core post : String) (v : Json)
    (hh : core.toList.head? = some '{') (hl : core.toList.getLast? = some '}')
    (hp : jsonParse core = some v)
    (hpre1 : '{' ∉ pre.toList) (hpost2 : '}' ∉ post.toList) :
    extract_json (pre ++ core ++ post) = v := by
  have hcore1 : 0 < core.toList.length := by
    cases hx : core.toList with
    | nil => rw [hx] at hh; simp at hh
    | cons c t => simp
  have hL : (pre ++ core ++ post).toList = pre.toList ++ (core.toList ++ post.toList) := by
    rw [string_toList_append, string_toList_append, List.append_assoc]
  have hNlen : (pre ++ core ++ post).toList.length
      = pre.toList.length + core.toList.length + post.toList.length := by
    rw [hL, List.length_append, List.length_append]
    omega
  have hfind : pyFind (pre ++ core ++ post) '{' = (pre.toList.length : Int) := by
    unfold pyFind
    rw [hL, List.findIdx?_append, findIdx?_none_of_not_mem '{' pre.toList hpre1,
      List.findIdx?_append, findIdx?_head_self '{' core.toList hh]
    simp
  have hrfind : pyRfind (pre ++ core ++ post) '}' =
      ((pre ++ core ++ post).toList.length : Int) - 1 - (post.toList.length : Int) := by
    unfold pyRfind
    have hrev : (pre ++ core ++ post).toList.reverse
        = post.toList.reverse ++ (core.toList.reverse ++ pre.toList.reverse) := by
      rw [hL]
      simp [List.reverse_append]
    rw [hrev, List.findIdx?_append,
      findIdx?_none_of_not_mem '}' post.toList.reverse (by simpa using hpost2),
      List.findIdx?_append,
      findIdx?_head_self '}' core.toList.reverse (by rw [List.head?_reverse]; exact hl)]
    simp
  have hend : pyRfind (pre ++ core ++ post) '}' + 1
      = ((pre.toList.length + core.toList.length : Nat) : Int) := by
    rw [hrfind]
    omega
  have hlo : pySliceIdx (pre ++ core ++ post).toList.length ((pre.toList.length : Int))
      = pre.toList.length := by
    unfold pySliceIdx; split <;> omega
  have hhi : pySliceIdx (pre ++ core ++ post).toList.length
      (((pre.toList.length + core.toList.length : Nat) : Int))
      = pre.toList.length + core.toList.length := by
    unfold pySliceIdx; split <;> omega
  simp only [extract_json, tryExtractJson, hfind, hend]
  rw [if_pos (by constructor <;> omega)]
  rw [pySlice_eq, hlo, hhi]
  have harith : pre.toList.length + core.toList.length - pre.toList.length
      = core.toList.length := by omega
  rw [harith, hL, List.drop_left, List.take_left, string_mk_toList, hp]




/-! ## Claim C3 -/

/-- C3 counterexample: "[1, 2]" is valid JSON yet extract_json wraps it as
raw_response instead of returning the parsed array, and the non-JSON text
x \x7b"a": 1\x7d y yields the embedded object rather than the raw_response
wrapper — both directions of the claimed equivalence fail. -/
theorem c3_counterexample_extraction :
    jsonParse "[1, 2]" = some (.arr [.num 1, .num 2])
    ∧ extract_json "[1, 2]" = .obj [("raw_response", .str "[1, 2]")]
    ∧ jsonParse "x \x7b\"a\": 1\x7d y" = none
    ∧ extract_json "x \x7b\"a\": 1\x7d y" = .obj [("a", .num 1)] :=
  ⟨rfl, rfl, rfl, rfl⟩

/-- C3 (amended): extract_json never throws and always returns a mapping;
when the input is exactly the text of a JSON object (first character the
open brace, last character the close brace), it returns the parsed value;
valid JSON that contains no open brace (arrays of atoms, numbers, strings,
booleans) is wrapped as raw_response instead, since the function only
ever parses the span from the first open brace to the last close
brace. -/
theorem c3_extract_json_amended :
    (∀ s : String, ∃ fs, extract_json s = Json.obj fs)
    ∧ (∀ (s : String) (v : Json), s.toList.head? = some '{' →
        s.toList.getLast? = some '}' → jsonParse s = some v → extract_json s = v)
    ∧ (∀ (s : String) (v : Json), '{' ∉ s.toList → jsonParse s = some v →
        extract_json s = Json.obj [("raw_response", .str s)]) :=
  ⟨fun s => tryExtractJson_obj "raw_response" s,
   extract_json_of_object_text,
   fun s _ h _ => extract_json_no_brace s h⟩

/-- C3 witness: the amended theorem applied at a JSON object text and at
the brace-free valid JSON array. -/
theorem c3_extract_json_amended_witness :
    extract_json "\x7b\"a\": 1\x7d" = Json.obj [("a", Json.num 1)]
    ∧ extract_json "[1, 2]" = Json.obj [("raw_response", Json.str "[1, 2]")] :=
  ⟨c3_extract_json_amended.2.1 "\x7b\"a\": 1\x7d" (Json.obj [("a", Json.num 1)])
      rfl rfl rfl,
   c3_extract_json_amended.2.2 "[1, 2]" (Json.arr [Json.num 1, Json.num 2])
      (by decide) rfl⟩

/-! ## Claim C4 -/

/-- C4 counterexample: on a response with a stray open brace before a
JSON-tagged fence, the spec's fence-first algorithm parses the fenced
object while the source's extract_json, which has no fence handling,
scans from the stray brace and falls back to raw_response. -/
theorem c4_counterexample_no_fence_priority :
    extractJsonSpecAlgorithm fencedWithStrayBrace = Json.obj [("a", Json.num 1)]
    ∧ extract_json fencedWithStrayBrace =
        Json.obj [("raw_response", Json.str fencedWithStrayBrace)]
    ∧ extract_json fencedWithStrayBrace ≠ extractJsonSpecAlgorithm fencedWithStrayBrace :=
  ⟨rfl, rfl, by decide⟩

/-- C4 (amended): extract_json has no fence-priority steps — it always
scans from the first open brace to the last close brace of the whole text;
consequently, for a response that embeds a JSON object inside any framing
whose prefix has no open brace and whose suffix has no close brace (a code
fence in particular), the scanned span is exactly the object text and the
fenced JSON is what gets parsed. -/
theorem c4_brace_scan_amended (pre core post : String) (v : Json)
    (hh : core.toList.head? = some '{') (hl : core.toList.getLast? = some '}')
    (hp : jsonParse core = some v)
    (hpre : '{' ∉ pre.toList) (hpost : '}' ∉ post.toList) :
    extract_json (pre ++ core ++ post) = v :=
  extract_json_framed pre core post v hh hl hp hpre hpost

/-- C4 witness: the amended theorem applied to a JSON object wrapped in a
tagged code fence. -/
theorem c4_brace_scan_amended_witness :
    extract_json ("```json\n" ++ "\x7b\"a\": 1\x7d" ++ "\n```") =
      Json.obj [("a", Json.num 1)] :=
  c4_brace_scan_amended "```json\n" "\x7b\"a\": 1\x7d" "\n```"
    (Json.obj [("a", Json.num 1)]) rfl rfl rfl (by decide) (by decide)


/-! ## Claim C1 -/


/-- C1: the baseline corrective generation runs exactly when the coerced
overall_quality is strictly below 7 and suggested_corrections is present
with a truthy (non-empty) value; when it runs, one extra call is made and
its output replaces the translated text, the draft being discarded; the
boundary instances are quality 6 (gate passes) and quality 7 (gate does
not). -/
theorem c1_quality_gate_threshold_and_replacement :
    (∀ (rd : Json) (m : Int),
        coercedScoreInt? (rd.get? "overall_quality") = some m →
        qualityGate rd =
          .ok (decide (m < 7) &&
            ((rd.get? "suggested_corrections").map Json.truthy).getD false))
    ∧ (∀ (o : Oracle) (k : Nat) (orig trans tl : String),
        ¬(orig = "" ∨ trans = "") →
        qualityGate (tryExtractJson "review" (response o k)) = .ok true →
        qualityCheckProcess o k orig trans tl =
          .ok (.result ⟨orig, response o (k + 1),
            tryExtractJson "review" (response o k), tl⟩, k + 2))
    ∧ (∀ (o : Oracle) (k : Nat) (orig trans tl : String),
        ¬(orig = "" ∨ trans = "") →
        qualityGate (tryExtractJson "review" (response o k)) = .ok false →
        qualityCheckProcess o k orig trans tl =
          .ok (.result ⟨orig, trans,
            tryExtractJson "review" (response o k), tl⟩, k + 1))
    ∧ qualityGate (Json.obj [("overall_quality", .num 6),
        ("suggested_corrections", .str "fix")]) = .ok true
    ∧ qualityGate (Json.obj [("overall_quality", .num 7),
        ("suggested_corrections", .str "fix")]) = .ok false := by
  refine ⟨fun rd m h => qualityGate_of_comparable rd m h, ?_, ?_, rfl, rfl⟩
  · intro o k orig trans tl he hg
    rw [qualityCheckProcess_eq o k orig trans tl he, hg]
  · intro o k orig trans tl he hg
    rw [qualityCheckProcess_eq o k orig trans tl he, hg]

/-- C1 witness: the theorem applied at a quality-6 review (correction call
made, its output C replacing the draft T) and at a quality-7 review (no
correction call, draft kept). -/
theorem c1_quality_gate_threshold_and_replacement_witness :
    qualityCheckProcess oracleQ6 0 "x" "T" "French" =
      .ok (.result ⟨"x", response oracleQ6 1,
        tryExtractJson "review" (response oracleQ6 0), "French"⟩, 0 + 2)
    ∧ qualityCheckProcess oracleQ7 0 "x" "T" "French" =
      .ok (.result ⟨"x", "T",
        tryExtractJson "review" (response oracleQ7 0), "French"⟩, 0 + 1)
    ∧ qualityGate (Json.obj [("overall_quality", .num 6),
        ("suggested_corrections", .str "fix")]) =
      .ok (decide ((6 : Int) < 7) &&
        (((Json.obj [("overall_quality", Json.num 6),
          ("suggested_corrections", Json.str "fix")]).get?
            "suggested_corrections").map Json.truthy).getD false) :=
  ⟨c1_quality_gate_threshold_and_replacement.2.1 oracleQ6 0 "x" "T" "French"
      (by simp) rfl,
   c1_quality_gate_threshold_and_replacement.2.2.1 oracleQ7 0 "x" "T" "French"
      (by simp) rfl,
   c1_quality_gate_threshold_and_replacement.1
      (Json.obj [("overall_quality", .num 6), ("suggested_corrections", .str "fix")])
      6 rfl⟩

/-! ## Claim C7 -/

/-- C7: score coercion turns the string "6" into the integer 6, any
non-numeric string into 0 (which then passes the threshold test whenever a
truthy corrections value is present), leaves integers unchanged, and
defaults an absent key to 0. -/
theorem c7_score_coercion :
    (∀ (s : String) (n : Int), pyInt s = some n →
        coerceScore (some (.str s)) = .num n)
    ∧ (∀ s : String, pyInt s = none → coerceScore (some (.str s)) = .num 0)
    ∧ (∀ n : Int, coerceScore (some (.num n)) = .num n)
    ∧ coerceScore none = .num 0
    ∧ pyInt "6" = some 6
    ∧ pyInt "not a number" = none
    ∧ (∀ (rd : Json) (s : String) (v : Json),
        rd.get? "overall_quality" = some (.str s) → pyInt s = none →
        rd.get? "suggested_corrections" = some v → v.truthy = true →
        qualityGate rd = .ok true) := by
  refine ⟨?_, ?_, fun n => rfl, rfl, rfl, rfl, ?_⟩
  · intro s n h
    simp [coerceScore, h]
  · intro s h
    simp [coerceScore, h]
  · intro rd s v h1 h2 h3 h4
    simp [qualityGate, h1, coerceScore, h2, pyLtInt, h3, h4]

/-- C7 witness: the theorem applied at the string score "6", at the
non-numeric string score, and at a review record whose non-numeric score
triggers the gate because corrections are present. -/
theorem c7_score_coercion_witness :
    coerceScore (some (.str "6")) = .num 6
    ∧ coerceScore (some (.str "not a number")) = .num 0
    ∧ qualityGate (Json.obj [("overall_quality", .str "not a number"),
        ("suggested_corrections", .str "fix")]) = .ok true :=
  ⟨c7_score_coercion.1 "6" 6 rfl,
   c7_score_coercion.2.1 "not a number" rfl,
   c7_score_coercion.2.2.2.2.2.2
      (Json.obj [("overall_quality", .str "not a number"),
        ("suggested_corrections", .str "fix")])
      "not a number" (.str "fix") rfl rfl rfl rfl⟩

/-! ## Claim C10 -/

/-- C10: in the Quebec variants the corrective generation runs exactly when
(coerced overall_quality below 7 or coerced quebec_french_authenticity
below 8) and the key suggested_corrections is present — mere presence
suffices, even for an empty value, and a translation of overall quality 9
is still corrected when its authenticity score is below 8; when the gate
passes, the correction is one further call whose output replaces the
translation. -/
theorem c10_quebec_gate_and_correction :
    (∀ (rd : Json) (oq qa : Int),
        coercedScoreInt? (rd.get? "overall_quality") = some oq →
        coercedScoreInt? (rd.get? "quebec_french_authenticity") = some qa →
        quebecQualityGate rd =
          .ok ((decide (oq < 7) || decide (qa < 8)) &&
            (rd.get? "suggested_corrections").isSome))
    ∧ quebecQualityGate (Json.obj [("overall_quality", .num 9),
        ("quebec_french_authenticity", .num 7),
        ("suggested_corrections", .str "")]) = .ok true
    ∧ (∀ (o : Oracle) (k : Nat) (orig trans r : String),
        ¬(orig = "" ∨ trans = "") → o k = .ok r →
        quebecQualityGate (extract_json r) = .ok true →
        check_quebec_french_quality o k orig trans =
          (invoke_bedrock_claude o (k + 1)).map
            (fun p => (.result ⟨p.1, extract_json r⟩, p.2)))
    ∧ (∀ (o : Oracle) (k : Nat) (orig trans r : String),
        ¬(orig = "" ∨ trans = "") → o k = .ok r →
        quebecQualityGate (extract_json r) = .ok false →
        check_quebec_french_quality o k orig trans =
          .ok (.result ⟨trans, extract_json r⟩, k + 1)) := by
  refine ⟨fun rd oq qa h1 h2 => quebecQualityGate_of_comparable rd oq qa h1 h2,
    rfl, ?_, ?_⟩
  · intro o k orig trans r he hr hg
    have hi : invoke_bedrock_claude o k = .ok (r, k + 1) := by
      unfold invoke_bedrock_claude; rw [hr]
    unfold check_quebec_french_quality
    rw [if_neg he, hi]
    cases hii : invoke_bedrock_claude o (k + 1) with
    | error e => simp [hg, hii, Except.map]
    | ok p => simp [hg, hii, Except.map]
  · intro o k orig trans r he hr hg
    have hi : invoke_bedrock_claude o k = .ok (r, k + 1) := by
      unfold invoke_bedrock_claude; rw [hr]
    unfold check_quebec_french_quality
    rw [if_neg he, hi]
    simp [hg]

/-- C10 witness: the gate characterization at the authenticity-7 review,
the gated run (one corrective call, output C), and the ungated run at the
authenticity-8 review (translation kept). -/
theorem c10_quebec_gate_and_correction_witness :
    quebecQualityGate (Json.obj [("overall_quality", .num 9),
        ("quebec_french_authenticity", .num 7), ("suggested_corrections", .str "")]) =
      .ok ((decide ((9 : Int) < 7) || decide ((7 : Int) < 8)) &&
        ((Json.obj [("overall_quality", Json.num 9),
          ("quebec_french_authenticity", Json.num 7),
          ("suggested_corrections", Json.str "")]).get? "suggested_corrections").isSome)
    ∧ check_quebec_french_quality oracleQ97 0 "x" "T" =
      (invoke_bedrock_claude oracleQ97 1).map
        (fun p => (.result ⟨p.1, extract_json quebecReview97⟩, p.2))
    ∧ check_quebec_french_quality oracleQ98 0 "x" "T" =
      .ok (.result ⟨"T", extract_json quebecReview98⟩, 0 + 1) :=
  ⟨c10_quebec_gate_and_correction.1
      (Json.obj [("overall_quality", .num 9),
        ("quebec_french_authenticity", .num 7), ("suggested_corrections", .str "")])
      9 7 rfl rfl,
   c10_quebec_gate_and_correction.2.2.1 oracleQ97 0 "x" "T" quebecReview97
      (by simp) rfl rfl,
   c10_quebec_gate_and_correction.2.2.2 oracleQ98 0 "x" "T" quebecReview98
      (by simp) rfl rfl⟩

/-! ## Claim C8 -/

/-- C8: the quality_review object in the result is always exactly the
review record recovered from the first review call, whether or not the
correction branch ran; at the pipeline level the final quality_review is
the extraction of the third call's response (the review call), so after a
correction the reported scores still reflect the pre-correction
assessment. -/
theorem c8_review_scores_not_recomputed :
    (∀ (o : Oracle) (k : Nat) (orig trans tl : String) (rec : QCRecord) (k2 : Nat),
        qualityCheckProcess o k orig trans tl = .ok (.result rec, k2) →
        rec.qualityReview = tryExtractJson "review" (response o k))
    ∧ (∀ (o : Oracle) (text tl ot tt tl2 : String) (da qr : Json) (kf : Nat),
        process_document o text tl = .ok (.final ot tt da qr tl2, kf) →
        qr = tryExtractJson "review" (response o 2)) := by
  refine ⟨fun o k orig trans tl rec k2 h => qualityCheckProcess_review o k orig trans tl rec k2 h, ?_⟩
  intro o text tl ot tt tl2 da qr kf h
  by_cases ht : text = ""
  · simp only [process_document, documentAnalysisProcess, if_pos ht] at h
    simp at h
  · simp [process_document, documentAnalysisProcess, translationProcess, call_claude,
      if_neg ht] at h
    cases hq : qualityCheckProcess o 2 text (response o 1) tl with
    | error e =>
      rw [hq] at h
      simp at h
    | ok p =>
      obtain ⟨out, k3⟩ := p
      rw [hq] at h
      cases out with
      | error msg => simp at h
      | result rec =>
        simp at h
        rw [← h.1.2.2.2.1]
        exact qualityCheckProcess_review o 2 text (response o 1) tl rec k3 hq

/-- C8 witness: both parts applied at concrete runs — the corrected run of
the quality-6 review, and the full pipeline run whose review response is
R. -/
theorem c8_review_scores_not_recomputed_witness :
    (QCRecord.mk "x" "C"
        (Json.obj [("overall_quality", Json.num 6), ("suggested_corrections", Json.str "fix")])
        "French").qualityReview = tryExtractJson "review" (response oracleQ6 0)
    ∧ (Json.obj [("review", Json.str "R")]) =
      tryExtractJson "review" (response (oracleBoom "boom") 2) :=
  ⟨c8_review_scores_not_recomputed.1 oracleQ6 0 "x" "T" "French"
      ⟨"x", "C", Json.obj [("overall_quality", Json.num 6),
        ("suggested_corrections", Json.str "fix")], "French"⟩ 2 rfl,
   c8_review_scores_not_recomputed.2 (oracleBoom "boom") "x" "French" "x" "R"
      "French" (Json.obj [("analysis", Json.str "A")])
      (Json.obj [("review", Json.str "R")]) 4 rfl⟩

end TransPipe
